import Mathlib

/-!
Shallow embedding of the `isbn` Go package (the final variant of the source:
`ISBN` record with `originalISBN`, `NewISBN`, `IsValid`, `Normalize`, `String`,
`BarCode`, and the length-inference parser `parseISBN`).

Go strings are modelled as `List Char` (one `Char` per byte; all inputs of
interest are ASCII).  A Go runtime panic (out-of-range slice) is modelled by
the `crash` constructor of `GoResult`.  Go integer `%` is truncated remainder,
modelled by `Int.tmod`.
-/

namespace IsbnGo

/-- Strings as lists of (byte-sized) characters. -/
abbrev Str := List Char

/-- The outcome of running a piece of Go code that may panic. -/
inductive GoResult (α : Type) where
  | crash : GoResult α
  | ok : α → GoResult α
deriving DecidableEq

/-- The only error value in the package: `errWrongISBN`. -/
inductive GoErr where
  | wrongISBN : GoErr
deriving DecidableEq

/-- `Version` (Go `int` constants `VersionUnknown = 0`, `Version10 = 10`,
`Version13 = 13`; no other value is ever assigned). -/
inductive Version where
  | unknown : Version
  | v10 : Version
  | v13 : Version
deriving DecidableEq

/-- `Version.String()` is `fmt.Sprintf("%d", v)`. -/
def versionToStr : Version → Str
  | Version.unknown => ('0' :: [])
  | Version.v10 => ('1' :: '0' :: [])
  | Version.v13 => ('1' :: '3' :: [])

/-- The `ISBN` struct. -/
structure ISBN where
  originalISBN : Str
  version : Version
  prefixStr : Str
  registrationGroup : Str
  registrant : Str
  publication : Str
  checkDigit : Str
  err : Option GoErr
deriving DecidableEq

/-- `DefaultPrefix = "978"`. -/
def defaultPrefixStr : Str := ('9' :: '7' :: '8' :: [])

/-- `int(v - '0')` where `v` ranges over the runes of a string
(`for _, v := range number` in `weightSum`); rune arithmetic does not wrap. -/
def digitValR (c : Char) : Int := (c.toNat : Int) - 48

/-- `int(input[i] - '0')` on a byte: byte subtraction wraps modulo 256
(`input[i]` is a `byte`; chars of interest are ASCII, i.e. one byte). -/
def goByteVal (c : Char) : Int := ((c.toNat + 208) % 256 : Nat)

/-- `strconv.Itoa`. -/
def intToStr (i : Int) : Str :=
  if i < 0 then '-' :: (Nat.repr i.natAbs).toList else (Nat.repr i.toNat).toList

/-- `weightSum(number, weight)` where `weight` is the version-10 closure from
`weightFn`: it starts at 10 and decrements after each call.  The second
argument is the closure's current value, so after consuming `k` characters the
value is the initial value minus `k`. -/
def weightSum10 : Str → Int → Int
  | [], _ => 0
  | c :: cs, v => digitValR c * v + weightSum10 cs (v - 1)

/-- `weightSum(number, weight)` where `weight` is the version-13 closure from
`weightFn`: the `n`-th call (0-based) returns `values[n % 2]` with
`values = [1, 3]`.  The second argument is the number of calls made so far. -/
def weightSum13 : Str → Nat → Int
  | [], _ => 0
  | c :: cs, n => digitValR c * (if n % 2 = 0 then 1 else 3) + weightSum13 cs (n + 1)

/-- `calculateV10CheckDigit`: the closure starts at 10; each `weightSum` call
consumes as many weights as the field has characters. -/
def calculateV10CheckDigit (r : ISBN) : Str :=
  let s1 := weightSum10 r.registrationGroup 10
  let s2 := weightSum10 r.registrant (10 - r.registrationGroup.length)
  let s3 := weightSum10 r.publication (10 - r.registrationGroup.length - r.registrant.length)
  let sum := s1 + s2 + s3
  let digit := 11 - Int.tmod sum 11
  if digit < 10 then intToStr digit else ('X' :: [])

/-- `calculateV13CheckDigit`. -/
def calculateV13CheckDigit (r : ISBN) : Str :=
  let s1 := weightSum13 r.prefixStr 0
  let s2 := weightSum13 r.registrationGroup r.prefixStr.length
  let s3 := weightSum13 r.registrant (r.prefixStr.length + r.registrationGroup.length)
  let s4 := weightSum13 r.publication
    (r.prefixStr.length + r.registrationGroup.length + r.registrant.length)
  let sum := s1 + s2 + s3 + s4
  let reminder := Int.tmod sum 10
  let reminder2 := if reminder = 0 then 10 else reminder
  intToStr (10 - reminder2)

/-- `getVersionFromOriginal`.  The Go code indexes `originalISBN[0]` and slices
`originalISBN[:7]`; every caller first checks `len(originalISBN) >= 7`
(`headerLength = 7`), so the `[]` case and the `take` below are exercised only
in-bounds. -/
def getVersionFromOriginal (orig : Str) : Version :=
  match orig with
  | [] => Version.unknown
  | c :: _ =>
    if c ≠ 'i' ∧ c ≠ 'I' then Version.unknown
    else
      let pv := orig.take 7
      if pv = ('i' :: 's' :: 'b' :: 'n' :: '-' :: '1' :: '0' :: [])
          ∨ pv = ('I' :: 'S' :: 'B' :: 'N' :: '-' :: '1' :: '0' :: []) then Version.v10
      else if pv = ('i' :: 's' :: 'b' :: 'n' :: [])
          ∨ pv = ('I' :: 'S' :: 'B' :: 'N' :: [])
          ∨ pv = ('i' :: 's' :: 'b' :: 'n' :: '-' :: '1' :: '3' :: [])
          ∨ pv = ('I' :: 'S' :: 'B' :: 'N' :: '-' :: '1' :: '3' :: []) then Version.v13
      else Version.unknown

/-- `IsValid` (`headerLength = 7`). -/
def IsValid (r : ISBN) : Bool :=
  if r.err.isSome ∨ r.checkDigit.length ≠ 1 ∨ r.originalISBN.length < 7 then false
  else
    let ov := getVersionFromOriginal r.originalISBN
    if ov ≠ Version.unknown ∧ ov ≠ r.version then false
    else
      match r.version with
      | Version.v10 => decide (calculateV10CheckDigit r = r.checkDigit)
      | Version.v13 => decide (calculateV13CheckDigit r = r.checkDigit)
      | Version.unknown => false

/-- `Normalize`: the check digit is recomputed on the receiver after `prefix`
and `version` have been overwritten. -/
def Normalize (r : ISBN) : ISBN :=
  if r.err.isSome ∨ (r.version = Version.v13 ∧ IsValid r = true) then r
  else
    let r1 : ISBN := { r with prefixStr := defaultPrefixStr, version := Version.v13 }
    { r1 with checkDigit := calculateV13CheckDigit r1 }

/-- The `String` method (human-readable form).  Version 10 prints
`"ISBN-%s %s-%s-%s-%s"` with `version.String()`; version 13 prints
`"ISBN %s-%s-%s-%s-%s"`; unknown prints `""`. -/
def stringRepr (r : ISBN) : Str :=
  match r.version with
  | Version.v10 =>
      ('I' :: 'S' :: 'B' :: 'N' :: '-' :: []) ++ versionToStr r.version
        ++ (' ' :: []) ++ r.registrationGroup ++ ('-' :: []) ++ r.registrant
        ++ ('-' :: []) ++ r.publication ++ ('-' :: []) ++ r.checkDigit
  | Version.v13 =>
      ('I' :: 'S' :: 'B' :: 'N' :: ' ' :: []) ++ r.prefixStr
        ++ ('-' :: []) ++ r.registrationGroup ++ ('-' :: []) ++ r.registrant
        ++ ('-' :: []) ++ r.publication ++ ('-' :: []) ++ r.checkDigit
  | Version.unknown => []

/-- `BarCode`. -/
def BarCode (r : ISBN) : Str :=
  r.prefixStr ++ r.registrationGroup ++ r.registrant ++ r.publication ++ r.checkDigit

/-- A character matched by the extraction regex `([\dXx]+)`. -/
def isbnChar (c : Char) : Bool := c.isDigit || c = 'X' || c = 'x'

/-- A character that makes the sanity regex `(ISBN|isbn)?[\d\s\-]+[xX]?` match
somewhere in the input: the mandatory part is one char of `[\d\s\-]`
(Go regexp `\s` is `[\t\n\f\r ]`). -/
def matchChar (c : Char) : Bool :=
  c.isDigit || c = '-' || c = ' ' || c = '\t' || c = '\n' || c = '\r' || c.toNat = 12

/-- Accumulator-based scanner: `findRunsAux input acc` returns the maximal runs
of `isbnChar` characters, with `acc` the reversed run in progress.  This is
`isbnParserRegex.FindAllString(input, -1)` for the regex `([\dXx]+)`. -/
def findRunsAux : Str → Str → List Str
  | [], acc => if acc = [] then [] else acc.reverse :: []
  | c :: cs, acc =>
    if isbnChar c then findRunsAux cs (c :: acc)
    else if acc = [] then findRunsAux cs []
    else acc.reverse :: findRunsAux cs []

/-- `isbnParserRegex.FindAllString(s, -1)`: all maximal `[\dXx]` runs. -/
def findAllNumbers (s : Str) : List Str := findRunsAux s []

/-- `subString(input, start, length)`.  Go returns `("", errWrongISBN)` when
`len(input) < start+length`; otherwise it slices `input[start : start+length]`,
which panics when `start < 0` or `length < 0`. -/
def subString (input : Str) (start length : Int) : GoResult (Str × Option GoErr) :=
  if (input.length : Int) < start + length then GoResult.ok ([], some GoErr.wrongISBN)
  else if 0 ≤ start ∧ 0 ≤ length then
    GoResult.ok ((input.drop start.toNat).take length.toNat, none)
  else GoResult.crash

/-- `parseNumber(input, start, length)`: 0 when the input is too short,
otherwise the base-10 value of the bytes `input[start .. start+length)`
(the Go loop sums `int(input[i]-'0') * int(math.Pow10(mul))`, which is exact
for the lengths used; `start` is always non-negative at the call sites). -/
def parseNumber (input : Str) (start length : Int) : Int :=
  if (input.length : Int) < start + length then 0
  else ((input.drop start.toNat).take length.toNat).foldl
    (fun acc c => acc * 10 + goByteVal c) 0

/-- `parseGroupLength`. -/
def parseGroupLength (group : Int) : Int :=
  if group < 60000 then 1
  else if group < 70000 then 0
  else if group < 80000 then 1
  else if group < 95000 then 2
  else if group < 99000 then 3
  else if group < 99900 then 4
  else if group < 99999 then 5
  else 0

/-- `parseRegistrantLength`. -/
def parseRegistrantLength (registrant : Int) : Int :=
  if registrant < 20000 then 2
  else if registrant < 50000 then 3
  else if registrant < 89000 then 4
  else if registrant < 95000 then 2
  else if registrant < 99000 then 4
  else if registrant < 100000 then 5
  else 0

/-- `parseISBN` (the length-inference path; `prefixLength = 3`,
`groupLength = registrantLength = 5`, `checkDigitLength = 1`; the
`originalISBN` field is filled in later by `NewISBN`). -/
def parseISBN (s : Str) : GoResult ISBN :=
  match subString s 0 3 with
  | GoResult.crash => GoResult.crash
  | GoResult.ok (pfx0, e0) =>
    match e0 with
    | some e => GoResult.ok ⟨[], Version.unknown, pfx0, [], [], [], [], some e⟩
    | none =>
      let pvi : Str × Version × Int :=
        if pfx0 ≠ defaultPrefixStr then ([], Version.v10, 0)
        else (pfx0, Version.v13, 3)
      match pvi with
      | (pfx, ver, idx) =>
        let gl := parseGroupLength (parseNumber s idx 5)
        if gl = 0 then GoResult.ok ⟨[], ver, pfx, [], [], [], [], some GoErr.wrongISBN⟩
        else
          match subString s idx gl with
          | GoResult.crash => GoResult.crash
          | GoResult.ok (grp, ge) =>
            match ge with
            | some e => GoResult.ok ⟨[], ver, pfx, grp, [], [], [], some e⟩
            | none =>
              let idx2 := idx + gl
              let rl := parseRegistrantLength (parseNumber s idx2 5)
              if rl = 0 then
                GoResult.ok ⟨[], ver, pfx, grp, [], [], [], some GoErr.wrongISBN⟩
              else
                match subString s idx2 rl with
                | GoResult.crash => GoResult.crash
                | GoResult.ok (reg, re) =>
                  match re with
                  | some e => GoResult.ok ⟨[], ver, pfx, grp, reg, [], [], some e⟩
                  | none =>
                    let idx3 := idx2 + rl
                    let lastIdx := (s.length : Int) - 1
                    match subString s idx3 (lastIdx - idx3) with
                    | GoResult.crash => GoResult.crash
                    | GoResult.ok (pub, pe) =>
                      match pe with
                      | some e => GoResult.ok ⟨[], ver, pfx, grp, reg, pub, [], some e⟩
                      | none =>
                        match subString s lastIdx 1 with
                        | GoResult.crash => GoResult.crash
                        | GoResult.ok (cd, ce) =>
                          GoResult.ok ⟨[], ver, pfx, grp, reg, pub, cd, ce⟩

/-- The version-hint strip of `NewISBN`: drop a leading `"13"`/`"10"` token
when there is more than one token. -/
def stripHint (numbers : List Str) : List Str :=
  match numbers with
  | n0 :: n1 :: rest =>
    if n0 = ('1' :: '3' :: []) ∨ n0 = ('1' :: '0' :: []) then n1 :: rest else numbers
  | _ => numbers

/-- The `switch len(numbers)` dispatch of `NewISBN` (before `originalISBN`
is filled in). -/
def newISBNCore (s : Str) : GoResult ISBN :=
  match stripHint (findAllNumbers s) with
  | g :: rg :: p :: cd :: [] => GoResult.ok ⟨[], Version.v10, [], g, rg, p, cd, none⟩
  | pf :: g :: rg :: p :: cd :: [] =>
      GoResult.ok ⟨[], Version.v13, pf, g, rg, p, cd, none⟩
  | n0 :: [] => parseISBN n0
  | _ => GoResult.ok ⟨[], Version.unknown, [], [], [], [], [], some GoErr.wrongISBN⟩

/-- `NewISBN`.  The early no-match return leaves `originalISBN` empty; every
other path sets `originalISBN` to the raw input after the `switch`. -/
def NewISBN (s : Str) : GoResult ISBN :=
  if ¬ (s.any matchChar) then
    GoResult.ok ⟨[], Version.unknown, [], [], [], [], [], some GoErr.wrongISBN⟩
  else
    match newISBNCore s with
    | GoResult.crash => GoResult.crash
    | GoResult.ok r => GoResult.ok { r with originalISBN := s }

end IsbnGo

namespace IsbnGo

/-! ### Shared facts about the weighted sums -/

/-- The character is one of `'0'`–`'9'` (an all-numeric field position). -/
def isDigitChar (c : Char) : Prop := 48 ≤ c.toNat ∧ c.toNat ≤ 57

instance isDigitChar_decidable (c : Char) : Decidable (isDigitChar c) :=
  inferInstanceAs (Decidable (48 ≤ c.toNat ∧ c.toNat ≤ 57))

lemma digitValR_bounds {c : Char} (h : isDigitChar c) :
    0 ≤ digitValR c ∧ digitValR c ≤ 9 := by
  obtain ⟨h1, h2⟩ := h
  unfold digitValR
  omega

lemma weightSum10_append (xs ys : Str) (v : Int) :
    weightSum10 (xs ++ ys) v = weightSum10 xs v + weightSum10 ys (v - xs.length) := by
  induction xs generalizing v with
  | nil => simp [weightSum10]
  | cons c cs ih =>
    simp only [List.cons_append, weightSum10, List.append_eq, List.length_cons]
    rw [ih]
    have h2 : v - 1 - (cs.length : Int) = v - ((cs.length + 1 : Nat) : Int) := by
      push_cast
      ring
    rw [← h2]
    ring

lemma weightSum13_append (xs ys : Str) (n : Nat) :
    weightSum13 (xs ++ ys) n = weightSum13 xs n + weightSum13 ys (n + xs.length) := by
  induction xs generalizing n with
  | nil => simp [weightSum13]
  | cons c cs ih =>
    simp only [List.cons_append, weightSum13, List.append_eq, List.length_cons]
    rw [ih]
    have h2 : n + 1 + cs.length = n + (cs.length + 1) := by omega
    rw [← h2]
    ring

lemma weightSum10_nonneg (l : Str) (v : Int) (hd : ∀ c ∈ l, isDigitChar c)
    (hl : (l.length : Int) ≤ v + 1) : 0 ≤ weightSum10 l v := by
  induction l generalizing v with
  | nil => simp [weightSum10]
  | cons c cs ih =>
    simp only [weightSum10]
    have hc := digitValR_bounds (hd c (List.mem_cons_self c cs))
    have hlen : (cs.length : Int) ≤ (v - 1) + 1 := by
      simp only [List.length_cons] at hl
      push_cast at hl
      omega
    have h1 : 0 ≤ weightSum10 cs (v - 1) :=
      ih (v - 1) (fun x hx => hd x (List.mem_cons_of_mem c hx)) hlen
    have hv : 0 ≤ v := by
      have hpos : (0 : Int) ≤ cs.length := by positivity
      omega
    nlinarith [hc.1, hc.2]

lemma weightSum13_nonneg (l : Str) (n : Nat) (hd : ∀ c ∈ l, isDigitChar c) :
    0 ≤ weightSum13 l n := by
  induction l generalizing n with
  | nil => simp [weightSum13]
  | cons c cs ih =>
    simp only [weightSum13]
    have hc := digitValR_bounds (hd c (List.mem_cons_self c cs))
    have h1 : 0 ≤ weightSum13 cs (n + 1) :=
      ih (n + 1) (fun x hx => hd x (List.mem_cons_of_mem c hx))
    have hw : (0 : Int) ≤ (if n % 2 = 0 then 1 else 3) := by split <;> norm_num
    nlinarith [hc.1]

/-- The three version-10 `weightSum` calls amount to one pass over the
concatenated body. -/
lemma calculateV10_concat (r : ISBN) :
    calculateV10CheckDigit r =
      (if 11 - Int.tmod (weightSum10 (r.registrationGroup ++ (r.registrant ++ r.publication)) 10) 11 < 10
       then intToStr (11 - Int.tmod (weightSum10 (r.registrationGroup ++ (r.registrant ++ r.publication)) 10) 11)
       else ('X' :: [])) := by
  have h : weightSum10 (r.registrationGroup ++ (r.registrant ++ r.publication)) 10 =
      weightSum10 r.registrationGroup 10
        + weightSum10 r.registrant (10 - r.registrationGroup.length)
        + weightSum10 r.publication (10 - r.registrationGroup.length - r.registrant.length) := by
    rw [weightSum10_append, weightSum10_append]
    ring
  simp only [calculateV10CheckDigit]
  rw [h]

/-- The four version-13 `weightSum` calls amount to one pass over the
concatenated prefix-plus-body. -/
lemma calculateV13_concat (r : ISBN) :
    calculateV13CheckDigit r =
      (intToStr (10 -
        (if Int.tmod (weightSum13 (r.prefixStr ++ (r.registrationGroup ++ (r.registrant ++ r.publication))) 0) 10 = 0
         then 10
         else Int.tmod (weightSum13 (r.prefixStr ++ (r.registrationGroup ++ (r.registrant ++ r.publication))) 0) 10))) := by
  have h : weightSum13 (r.prefixStr ++ (r.registrationGroup ++ (r.registrant ++ r.publication))) 0 =
      weightSum13 r.prefixStr 0
        + weightSum13 r.registrationGroup r.prefixStr.length
        + weightSum13 r.registrant (r.prefixStr.length + r.registrationGroup.length)
        + weightSum13 r.publication
            (r.prefixStr.length + r.registrationGroup.length + r.registrant.length) := by
    rw [weightSum13_append, weightSum13_append, weightSum13_append]
    simp only [Nat.zero_add, Nat.add_assoc]
    ring
  simp only [calculateV13CheckDigit]
  rw [h]

/-- Unfolded description of `IsValid`: all guards spelled out.  The check-digit
comparison is exact string equality (in particular case-sensitive). -/
lemma isValid_eq_true_iff (r : ISBN) :
    IsValid r = true ↔
      (r.err = none ∧ r.checkDigit.length = 1 ∧ 7 ≤ r.originalISBN.length ∧
        (getVersionFromOriginal r.originalISBN = Version.unknown ∨
          getVersionFromOriginal r.originalISBN = r.version) ∧
        ((r.version = Version.v10 ∧ calculateV10CheckDigit r = r.checkDigit) ∨
         (r.version = Version.v13 ∧ calculateV13CheckDigit r = r.checkDigit))) := by
  unfold IsValid
  rcases herr : r.err with _ | e
  · by_cases hb : r.checkDigit.length = 1
    · by_cases hc : r.originalISBN.length < 7
      · rw [if_pos (by simp [hc])]
        simp only [Bool.false_eq_true, false_iff]
        rintro ⟨-, -, hlen, -, -⟩
        omega
      · have hc7 : 7 ≤ r.originalISBN.length := Nat.le_of_not_lt hc
        rw [if_neg (by simp [hb, hc])]
        by_cases hov : getVersionFromOriginal r.originalISBN ≠ Version.unknown ∧
            getVersionFromOriginal r.originalISBN ≠ r.version
        · rw [if_pos hov]
          simp only [Bool.false_eq_true, false_iff]
          rintro ⟨-, -, -, hov2, -⟩
          rcases hov2 with h1 | h1 <;> tauto
        · rw [if_neg hov]
          have hov2 : getVersionFromOriginal r.originalISBN = Version.unknown ∨
              getVersionFromOriginal r.originalISBN = r.version := by tauto
          rcases hver : r.version with _ | _ | _ <;>
            rw [hver] at hov2 <;>
            simp [hb, hc7, hov2, decide_eq_true_eq]
    · rw [if_pos (by simp [hb])]
      simp only [Bool.false_eq_true, false_iff]
      rintro ⟨-, h1, -⟩
      exact hb h1
  · rw [if_pos (by simp)]
    simp only [Bool.false_eq_true, false_iff]
    rintro ⟨h1, -⟩
    exact absurd h1 (by simp)

end IsbnGo

namespace IsbnGo

/-- Every record produced by `NewISBN` stores either the raw input or (on the
early no-match return) the empty string as `originalISBN`. -/
lemma newISBN_originalISBN (s : Str) (r : ISBN) (h : NewISBN s = GoResult.ok r) :
    r.originalISBN = s ∨ r.originalISBN = [] := by
  unfold NewISBN at h
  by_cases hm : ¬ (s.any matchChar)
  · rw [if_pos hm] at h
    injection h with h2
    rw [← h2]
    right
    rfl
  · rw [if_neg hm] at h
    rcases hcore : newISBNCore s with _ | r0 <;> rw [hcore] at h
    · exact absurd h (by simp)
    · injection h with h2
      rw [← h2]
      left
      rfl

/-! ### C1 — parse never panics (refuted: the code can panic) -/

/-- C1: the claim says `NewISBN` never raises or panics and that a too-short
remaining input always turns into a parse-error record.  On the input `"000"`
the length-inference parser slices the publication with negative length
`lastIdx - idx = 2 - 3 = -1`: `subString`'s shortness guard
`len(input) < start+length` does not fire (3 < 2 is false) and the Go slice
`"000"[3:2]` panics at run time instead of producing an error record. -/
theorem c1_parse_crash : NewISBN ('0' :: '0' :: '0' :: []) = GoResult.crash := by
  decide

/-! ### C7 — parse("12345") (corrected: no error is reported) -/

/-- The record produced by `NewISBN "12345"`. -/
def rec12345 : ISBN :=
  ⟨('1' :: '2' :: '3' :: '4' :: '5' :: []), Version.v10, [],
    ('1' :: []), ('2' :: '3' :: []), ('4' :: []), ('5' :: []), none⟩

/-- C7 counterexample: contrary to the claim, `parse("12345")` returns a
record whose error is nil — the length-inference parser happily splits the
5-character input. -/
theorem c7_counterexample :
    NewISBN ('1' :: '2' :: '3' :: '4' :: '5' :: []) = GoResult.ok rec12345 ∧
      rec12345.err = none := by
  constructor
  · decide
  · decide

/-- C7 amended: `parse("12345")` returns an error-free record (split as group
`"1"`, registrant `"23"`, publication `"4"`, check digit `"5"`), and `isValid`
on that record is false. -/
theorem c7_amended :
    NewISBN ('1' :: '2' :: '3' :: '4' :: '5' :: []) = GoResult.ok rec12345 ∧
      rec12345.err = none ∧
      IsValid rec12345 = false := by
  refine ⟨by decide, by decide, by decide⟩

/-! ### C10 — short inputs are never valid (confirmed) -/

/-- C10: any record built by `NewISBN` from an input shorter than 7 characters
is rejected by `IsValid`, regardless of its fields — `IsValid` compares
`len(originalISBN)` against `headerLength = 7`. -/
theorem c10_short_input_invalid (s : Str) (r : ISBN)
    (h : NewISBN s = GoResult.ok r) (hlen : s.length < 7) : IsValid r = false := by
  have horig := newISBN_originalISBN s r h
  have h7 : r.originalISBN.length < 7 := by
    rcases horig with h1 | h1
    · rw [h1]
      exact hlen
    · rw [h1]
      simp
  unfold IsValid
  rw [if_pos (Or.inr (Or.inr h7))]

/-- The record produced by `NewISBN "00045"`: error-free, version 10, and its
stored check digit `"5"` equals the recomputed one. -/
def rec00045 : ISBN :=
  ⟨('0' :: '0' :: '0' :: '4' :: '5' :: []), Version.v10, [],
    ('0' :: []), ('0' :: '0' :: []), ('4' :: []), ('5' :: []), none⟩

/-- C10 witness: the record parsed from `"00045"` is error-free and its check
digit matches the recomputed one, yet `IsValid` is false. -/
theorem c10_witness :
    NewISBN ('0' :: '0' :: '0' :: '4' :: '5' :: []) = GoResult.ok rec00045 ∧
      rec00045.err = none ∧
      calculateV10CheckDigit rec00045 = rec00045.checkDigit ∧
      IsValid rec00045 = false :=
  ⟨by decide, by decide, by decide,
    c10_short_input_invalid ('0' :: '0' :: '0' :: '4' :: '5' :: []) rec00045
      (by decide) (by decide)⟩

/-! ### C4 — length-band tables (confirmed) -/

/-- Modelled from the spec: the registration-group length band table,
transcribed with both band bounds. -/
def specGroupLen (value : Int) : Int :=
  if value < 60000 then 1
  else if 60000 ≤ value ∧ value < 70000 then 0
  else if 70000 ≤ value ∧ value < 80000 then 1
  else if 80000 ≤ value ∧ value < 95000 then 2
  else if 95000 ≤ value ∧ value < 99000 then 3
  else if 99000 ≤ value ∧ value < 99900 then 4
  else if 99900 ≤ value ∧ value < 99999 then 5
  else 0

/-- Modelled from the spec: the registrant length band table, transcribed
with both band bounds. -/
def specRegistrantLen (value : Int) : Int :=
  if value < 20000 then 2
  else if 20000 ≤ value ∧ value < 50000 then 3
  else if 50000 ≤ value ∧ value < 89000 then 4
  else if 89000 ≤ value ∧ value < 95000 then 2
  else if 95000 ≤ value ∧ value < 99000 then 4
  else if 99000 ≤ value ∧ value < 100000 then 5
  else 0

/-- Where the group lookahead starts in `parseISBN`: after the `"978"`
prefix for version 13, at the start otherwise. -/
def groupStartIdx (s : Str) : Int :=
  if s.take 3 ≠ defaultPrefixStr then 0 else 3

lemma subString_ok (input : Str) (start length : Int) (h0 : 0 ≤ start) (h1 : 0 ≤ length)
    (h2 : start + length ≤ (input.length : Int)) :
    subString input start length = GoResult.ok ((input.drop start.toNat).take length.toNat, none) := by
  unfold subString
  rw [if_neg (by omega), if_pos ⟨h0, h1⟩]

lemma parseGroupLength_range (v : Int) : 0 ≤ parseGroupLength v ∧ parseGroupLength v ≤ 5 := by
  unfold parseGroupLength
  split_ifs <;> norm_num

/-- If the group lookahead lands in a zero-length band, `parseISBN` fails
with the parse error. -/
lemma parse_fails_on_zero_group (s : Str) (h3 : 3 ≤ s.length)
    (hgl : parseGroupLength (parseNumber s (groupStartIdx s) 5) = 0) :
    ∃ r, parseISBN s = GoResult.ok r ∧ r.err = some GoErr.wrongISBN := by
  unfold parseISBN
  rw [subString_ok s 0 3 (by norm_num) (by norm_num) (by push_cast; omega)]
  simp only [show Int.toNat 3 = 3 from rfl, show Int.toNat 0 = 0 from rfl, List.drop_zero]
  unfold groupStartIdx at hgl
  by_cases hp : s.take 3 ≠ defaultPrefixStr
  · rw [if_pos hp] at hgl ⊢
    dsimp only
    rw [if_pos hgl]
    exact ⟨_, rfl, rfl⟩
  · rw [if_neg hp] at hgl ⊢
    dsimp only
    rw [if_pos hgl]
    exact ⟨_, rfl, rfl⟩

/-- If the group step succeeds but the registrant lookahead lands in a
zero-length band, `parseISBN` fails with the parse error. -/
lemma parse_fails_on_zero_registrant (s : Str) (gl : Int) (h3 : 3 ≤ s.length)
    (hgl : gl = parseGroupLength (parseNumber s (groupStartIdx s) 5))
    (hgl0 : gl ≠ 0)
    (hfit : groupStartIdx s + gl ≤ (s.length : Int))
    (hrl : parseRegistrantLength (parseNumber s (groupStartIdx s + gl) 5) = 0) :
    ∃ r, parseISBN s = GoResult.ok r ∧ r.err = some GoErr.wrongISBN := by
  have hglr := parseGroupLength_range (parseNumber s (groupStartIdx s) 5)
  rw [← hgl] at hglr
  unfold parseISBN
  rw [subString_ok s 0 3 (by norm_num) (by norm_num) (by push_cast; omega)]
  simp only [show Int.toNat 3 = 3 from rfl, show Int.toNat 0 = 0 from rfl, List.drop_zero]
  unfold groupStartIdx at hgl hfit hrl
  by_cases hp : s.take 3 ≠ defaultPrefixStr
  · rw [if_pos hp] at hgl hfit hrl ⊢
    dsimp only
    rw [← hgl, if_neg hgl0]
    rw [subString_ok s 0 gl (by norm_num) (by omega) (by omega)]
    dsimp only
    rw [if_pos hrl]
    exact ⟨_, rfl, rfl⟩
  · rw [if_neg hp] at hgl hfit hrl ⊢
    dsimp only
    rw [← hgl, if_neg hgl0]
    rw [subString_ok s 3 gl (by norm_num) (by omega) (by omega)]
    dsimp only
    rw [if_pos hrl]
    exact ⟨_, rfl, rfl⟩

set_option maxHeartbeats 1600000 in
/-- C4: for every 5-digit lookahead value the two length functions agree
exactly with the spec's band tables, and a zero length (group or registrant)
makes the length-inference parse fail with the parse error. -/
theorem c4_length_tables :
    (∀ v : Int, 0 ≤ v → v ≤ 99999 →
        parseGroupLength v = specGroupLen v ∧ parseRegistrantLength v = specRegistrantLen v)
    ∧ (∀ s : Str, 3 ≤ s.length →
        parseGroupLength (parseNumber s (groupStartIdx s) 5) = 0 →
        ∃ r, parseISBN s = GoResult.ok r ∧ r.err = some GoErr.wrongISBN)
    ∧ (∀ s : Str, ∀ gl : Int, 3 ≤ s.length →
        gl = parseGroupLength (parseNumber s (groupStartIdx s) 5) →
        gl ≠ 0 →
        groupStartIdx s + gl ≤ (s.length : Int) →
        parseRegistrantLength (parseNumber s (groupStartIdx s + gl) 5) = 0 →
        ∃ r, parseISBN s = GoResult.ok r ∧ r.err = some GoErr.wrongISBN) := by
  refine ⟨?_, parse_fails_on_zero_group, parse_fails_on_zero_registrant⟩
  intro v h0 h1
  constructor
  · unfold parseGroupLength specGroupLen
    split_ifs <;> omega
  · unfold parseRegistrantLength specRegistrantLen
    split_ifs <;> omega

/-- C4 witness: the band agreement at the concrete lookahead 65000 (the
reserved zero-length group band), a concrete group-band failure
(`"6000000000"`), and a concrete registrant-band failure (`"0XXXXX"`, whose
registrant lookahead value 444440 exceeds every band). -/
theorem c4_witness :
    (parseGroupLength 65000 = specGroupLen 65000 ∧
      parseRegistrantLength 65000 = specRegistrantLen 65000)
    ∧ (∃ r, parseISBN ('6' :: '0' :: '0' :: '0' :: '0' :: '0' :: '0' :: '0' :: '0' :: '0' :: []) =
        GoResult.ok r ∧ r.err = some GoErr.wrongISBN)
    ∧ (∃ r, parseISBN ('0' :: 'X' :: 'X' :: 'X' :: 'X' :: 'X' :: []) =
        GoResult.ok r ∧ r.err = some GoErr.wrongISBN) :=
  ⟨c4_length_tables.1 65000 (by norm_num) (by norm_num),
    c4_length_tables.2.1 ('6' :: '0' :: '0' :: '0' :: '0' :: '0' :: '0' :: '0' :: '0' :: '0' :: [])
      (by decide) (by decide),
    c4_length_tables.2.2 ('0' :: 'X' :: 'X' :: 'X' :: 'X' :: 'X' :: []) 1
      (by decide) (by decide) (by decide) (by decide) (by decide)⟩

/-! ### C2 / C3 — check-digit formulas -/

/-- Modelled from the spec: the version-10 weighted sum, "weights descend
10,9,8,...,2 applied left to right across the concatenation" — position `i`
carries weight `10 - i`. -/
def specV10Sum (ds : Str) : Int :=
  (ds.enum.map (fun q => digitValR q.2 * (10 - (q.1 : Int)))).sum

/-- Modelled from the spec: the version-13 weighted sum, "weights alternate
1,3,1,3,... starting at 1 applied left to right across the concatenation" —
position `i` carries weight 1 when `i` is even and 3 when odd. -/
def specV13Sum (ds : Str) : Int :=
  (ds.enum.map (fun q => digitValR q.2 * (if q.1 % 2 = 0 then 1 else 3))).sum

lemma weightSum10_enumFrom (l : Str) (n : Nat) :
    ((l.enumFrom n).map (fun q => digitValR q.2 * (10 - (q.1 : Int)))).sum
      = weightSum10 l (10 - (n : Int)) := by
  induction l generalizing n with
  | nil => simp [weightSum10]
  | cons c cs ih =>
    simp only [List.enumFrom_cons, List.map_cons, List.sum_cons, weightSum10, ih (n + 1)]
    have h : (10 : Int) - ((n + 1 : Nat) : Int) = (10 - (n : Int)) - 1 := by
      push_cast
      ring
    rw [h]

lemma specV10Sum_eq (ds : Str) : specV10Sum ds = weightSum10 ds 10 := by
  have h := weightSum10_enumFrom ds 0
  simpa [specV10Sum, List.enum] using h

lemma weightSum13_enumFrom (l : Str) (n : Nat) :
    ((l.enumFrom n).map (fun q => digitValR q.2 * (if q.1 % 2 = 0 then 1 else 3))).sum
      = weightSum13 l n := by
  induction l generalizing n with
  | nil => simp [weightSum13]
  | cons c cs ih =>
    simp only [List.enumFrom_cons, List.map_cons, List.sum_cons, weightSum13, ih (n + 1)]

lemma specV13Sum_eq (ds : Str) : specV13Sum ds = weightSum13 ds 0 := by
  have h := weightSum13_enumFrom ds 0
  simpa [specV13Sum, List.enum] using h

/-- `strconv.Itoa` of a single-digit value is the matching digit character. -/
lemma intToStr_digit (d : Int) (h0 : 0 ≤ d) (h9 : d ≤ 9) :
    (intToStr d).length = 1 ∧ ∀ c ∈ intToStr d, isDigitChar c := by
  interval_cases d <;> refine ⟨by decide, by decide⟩

/-- Modelled from the spec, C2's claimed rendering: `digit = 11 − (Σ mod 11)`,
`'X'` exactly when `digit == 10`, else the decimal rendering of `digit`. -/
def specV10CheckDigit (r : ISBN) : Str :=
  let sum := specV10Sum (r.registrationGroup ++ (r.registrant ++ r.publication))
  let digit := 11 - Int.tmod sum 11
  if digit = 10 then ('X' :: []) else intToStr digit

/-- An all-zero version-10 body: 9 numeric digits whose weighted sum is 0. -/
def recAllZero : ISBN :=
  ⟨[], Version.v10, [], ('0' :: []), ('0' :: '0' :: []),
    ('0' :: '0' :: '0' :: '0' :: '0' :: '0' :: []), [], none⟩

/-- C2 counterexample: on the all-zero body the weighted sum is 0, so
`digit = 11 - 0 = 11`; the code renders `"X"` (its branch is `digit < 10`),
while the claim's rendering ("`'X'` when `digit == 10`, else the decimal
digit") yields `"11"`. -/
theorem c2_counterexample :
    recAllZero.version = Version.v10 ∧
      (∀ c ∈ recAllZero.registrationGroup ++ (recAllZero.registrant ++ recAllZero.publication),
        isDigitChar c) ∧
      (recAllZero.registrationGroup ++ (recAllZero.registrant ++ recAllZero.publication)).length = 9 ∧
      calculateV10CheckDigit recAllZero = ('X' :: []) ∧
      specV10CheckDigit recAllZero = ('1' :: '1' :: []) ∧
      calculateV10CheckDigit recAllZero ≠ specV10CheckDigit recAllZero := by
  refine ⟨by decide, by decide, by decide, by decide, by decide, by decide⟩

/-- C2 amended: for every version-10 record with all-numeric body of 9 digits,
the computed check digit follows the spec formula `digit = 11 − (Σ mod 11)`
with the positional weights 10,9,...,2 over the concatenated body, but it is
rendered as `'X'` whenever `digit = 10` OR `digit = 11` (the latter occurs
when the weighted sum is divisible by 11); only for `digit ≤ 9` is the decimal
digit rendered. -/
theorem c2_v10_check_digit (r : ISBN) (hver : r.version = Version.v10)
    (hd : ∀ c ∈ r.registrationGroup ++ (r.registrant ++ r.publication), isDigitChar c)
    (h9 : (r.registrationGroup ++ (r.registrant ++ r.publication)).length = 9) :
    calculateV10CheckDigit r =
      (if 11 - Int.tmod (specV10Sum (r.registrationGroup ++ (r.registrant ++ r.publication))) 11 = 10
          ∨ 11 - Int.tmod (specV10Sum (r.registrationGroup ++ (r.registrant ++ r.publication))) 11 = 11
       then ('X' :: [])
       else intToStr (11 - Int.tmod (specV10Sum (r.registrationGroup ++ (r.registrant ++ r.publication))) 11)) := by
  rw [calculateV10_concat, specV10Sum_eq]
  have hnn : 0 ≤ weightSum10 (r.registrationGroup ++ (r.registrant ++ r.publication)) 10 := by
    refine weightSum10_nonneg _ 10 hd ?_
    rw [h9]
    norm_num
  have hmod : Int.tmod (weightSum10 (r.registrationGroup ++ (r.registrant ++ r.publication)) 10) 11
      = (weightSum10 (r.registrationGroup ++ (r.registrant ++ r.publication)) 10) % 11 :=
    Int.tmod_eq_emod hnn (by norm_num)
  have h0 : 0 ≤ (weightSum10 (r.registrationGroup ++ (r.registrant ++ r.publication)) 10) % 11 :=
    Int.emod_nonneg _ (by norm_num)
  have h1 : (weightSum10 (r.registrationGroup ++ (r.registrant ++ r.publication)) 10) % 11 < 11 :=
    Int.emod_lt_of_pos _ (by norm_num)
  rw [hmod]
  by_cases hlt : 11 - (weightSum10 (r.registrationGroup ++ (r.registrant ++ r.publication)) 10) % 11 < 10
  · rw [if_pos hlt, if_neg (by omega)]
  · rw [if_neg hlt, if_pos (by omega)]

/-- The version-10 record with group "0", registrant "393", publication
"04002" (body of the ISBN 0-393-04002-X test vector). -/
def rec0393 : ISBN :=
  ⟨[], Version.v10, [], ('0' :: []), ('3' :: '9' :: '3' :: []),
    ('0' :: '4' :: '0' :: '0' :: '2' :: []), ('X' :: []), none⟩

/-- C2 witness: the amended formula applied to the 0-393-04002 body renders
`"X"` (weighted sum 144, `144 mod 11 = 1`, `digit = 10`). -/
theorem c2_witness :
    rec0393.version = Version.v10 ∧
      (∀ c ∈ rec0393.registrationGroup ++ (rec0393.registrant ++ rec0393.publication),
        isDigitChar c) ∧
      (rec0393.registrationGroup ++ (rec0393.registrant ++ rec0393.publication)).length = 9 ∧
      calculateV10CheckDigit rec0393 = ('X' :: []) :=
  ⟨rfl, by decide, by decide, by
    rw [c2_v10_check_digit rec0393 rfl (by decide) (by decide)]
    decide⟩

/-- C3: for every version-13 record with all-numeric prefix and body totalling
12 digits, the computed check digit is `10 − r` where `r = (Σ mod 10)` with
alternating weights 1,3 over the concatenation, `r` replaced by 10 when the
remainder is 0 — and the result is always a single decimal digit 0–9. -/
theorem c3_v13_check_digit (r : ISBN) (hver : r.version = Version.v13)
    (hd : ∀ c ∈ r.prefixStr ++ (r.registrationGroup ++ (r.registrant ++ r.publication)),
      isDigitChar c)
    (h12 : (r.prefixStr ++ (r.registrationGroup ++ (r.registrant ++ r.publication))).length = 12) :
    calculateV13CheckDigit r =
      intToStr (10 -
        (if Int.tmod (specV13Sum (r.prefixStr ++ (r.registrationGroup ++ (r.registrant ++ r.publication)))) 10 = 0
         then 10
         else Int.tmod (specV13Sum (r.prefixStr ++ (r.registrationGroup ++ (r.registrant ++ r.publication)))) 10))
    ∧ (calculateV13CheckDigit r).length = 1
    ∧ (∀ c ∈ calculateV13CheckDigit r, isDigitChar c) := by
  have heq : calculateV13CheckDigit r =
      intToStr (10 -
        (if Int.tmod (specV13Sum (r.prefixStr ++ (r.registrationGroup ++ (r.registrant ++ r.publication)))) 10 = 0
         then 10
         else Int.tmod (specV13Sum (r.prefixStr ++ (r.registrationGroup ++ (r.registrant ++ r.publication)))) 10)) := by
    rw [calculateV13_concat, specV13Sum_eq]
  refine ⟨heq, ?_⟩
  have hnn : 0 ≤ weightSum13 (r.prefixStr ++ (r.registrationGroup ++ (r.registrant ++ r.publication))) 0 :=
    weightSum13_nonneg _ 0 hd
  have hmod : Int.tmod (weightSum13 (r.prefixStr ++ (r.registrationGroup ++ (r.registrant ++ r.publication))) 0) 10
      = (weightSum13 (r.prefixStr ++ (r.registrationGroup ++ (r.registrant ++ r.publication))) 0) % 10 :=
    Int.tmod_eq_emod hnn (by norm_num)
  have h0 : 0 ≤ (weightSum13 (r.prefixStr ++ (r.registrationGroup ++ (r.registrant ++ r.publication))) 0) % 10 :=
    Int.emod_nonneg _ (by norm_num)
  have h1 : (weightSum13 (r.prefixStr ++ (r.registrationGroup ++ (r.registrant ++ r.publication))) 0) % 10 < 10 :=
    Int.emod_lt_of_pos _ (by norm_num)
  rw [heq, specV13Sum_eq, hmod]
  set t := (weightSum13 (r.prefixStr ++ (r.registrationGroup ++ (r.registrant ++ r.publication))) 0) % 10 with ht
  have hdig := intToStr_digit (10 - (if t = 0 then 10 else t)) (by split <;> omega) (by split <;> omega)
  exact hdig

/-- The version-13 record parsed from 9780777777770. -/
def rec978 : ISBN :=
  ⟨[], Version.v13, ('9' :: '7' :: '8' :: []), ('0' :: []),
    ('7' :: '7' :: '7' :: '7' :: []), ('7' :: '7' :: '7' :: '7' :: []), ('0' :: []), none⟩

/-- C3 witness: on the 978-0-7777-7777 fields (weighted sum 150, remainder 0
treated as 10) the computed check digit is the single decimal digit `"0"`. -/
theorem c3_witness :
    rec978.version = Version.v13 ∧
      (∀ c ∈ rec978.prefixStr ++ (rec978.registrationGroup ++ (rec978.registrant ++ rec978.publication)),
        isDigitChar c) ∧
      (rec978.prefixStr ++ (rec978.registrationGroup ++ (rec978.registrant ++ rec978.publication))).length = 12 ∧
      calculateV13CheckDigit rec978 = ('0' :: []) ∧
      (calculateV13CheckDigit rec978).length = 1 :=
  ⟨rfl, by decide, by decide, by
    rw [(c3_v13_check_digit rec978 rfl (by decide) (by decide)).1]
    decide, by
    rw [(c3_v13_check_digit rec978 rfl (by decide) (by decide)).1]
    decide⟩

/-! ### C5 — the validator's comparison (corrected: case-sensitive, extra guards) -/

/-- The record parsed from `"ISBN 0-393-04002-x"` (lower-case check digit). -/
def recLowerX : ISBN :=
  ⟨("ISBN 0-393-04002-x".toList), Version.v10, [], ('0' :: []),
    ('3' :: '9' :: '3' :: []), ('0' :: '4' :: '0' :: '0' :: '2' :: []), ('x' :: []), none⟩

/-- C5 counterexample: an error-free version-10 record with a one-character
check digit whose recomputed check digit `"X"` matches the stored `"x"` up to
case — the claim then demands `isValid = true`, but the code compares the
strings exactly and returns false. -/
theorem c5_counterexample :
    NewISBN ("ISBN 0-393-04002-x".toList) = GoResult.ok recLowerX ∧
      recLowerX.err = none ∧
      recLowerX.checkDigit.length = 1 ∧
      recLowerX.version = Version.v10 ∧
      calculateV10CheckDigit recLowerX = ('X' :: []) ∧
      recLowerX.checkDigit = ('x' :: []) ∧
      IsValid recLowerX = false := by
  refine ⟨by decide, by decide, by decide, by decide, by decide, by decide, by decide⟩

/-- C5 amended: for every record without a parse error whose check-digit field
is one character, `isValid` is true iff the original input is at least 7
characters long, any `ISBN-10`/`ISBN-13` label in the original input agrees
with the record's version, and the recomputed check digit (formula chosen by
version) equals the stored one EXACTLY — the comparison is case-sensitive, so
a stored `'x'` is never accepted; an unknown version always yields false. -/
theorem c5_validator_exact (r : ISBN) (he : r.err = none) (hcd : r.checkDigit.length = 1) :
    IsValid r = true ↔
      (7 ≤ r.originalISBN.length ∧
        (getVersionFromOriginal r.originalISBN = Version.unknown ∨
          getVersionFromOriginal r.originalISBN = r.version) ∧
        ((r.version = Version.v10 ∧ calculateV10CheckDigit r = r.checkDigit) ∨
         (r.version = Version.v13 ∧ calculateV13CheckDigit r = r.checkDigit))) := by
  rw [isValid_eq_true_iff]
  simp [he, hcd]

/-- The valid record parsed from `"9780777777770"` (with its original input). -/
def recValid13 : ISBN :=
  ⟨("9780777777770".toList), Version.v13, ('9' :: '7' :: '8' :: []), ('0' :: []),
    ('7' :: '7' :: '7' :: '7' :: []), ('7' :: '7' :: '7' :: '7' :: []), ('0' :: []), none⟩

/-- C5 witness: the characterization applied to the parsed 9780777777770
record shows it valid. -/
theorem c5_witness :
    recValid13.err = none ∧ recValid13.checkDigit.length = 1 ∧ IsValid recValid13 = true :=
  ⟨by decide, by decide, by
    rw [c5_validator_exact recValid13 (by decide) (by decide)]
    decide⟩

/-! ### C6 — error short-circuits (corrected: `String` is not empty) -/

/-- The record parsed from `"9780"`: the version and prefix were already set
when the registrant slice failed, so the record carries both a version and an
error. -/
def rec9780 : ISBN :=
  ⟨('9' :: '7' :: '8' :: '0' :: []), Version.v13, ('9' :: '7' :: '8' :: []),
    ('0' :: []), [], [], [], some GoErr.wrongISBN⟩

/-- C6 counterexample: a record carrying a parse error whose `String()` is
`"ISBN 978-0---"`, not the empty string — the formatter dispatches on the
version, which was set before the error was detected. -/
theorem c6_counterexample :
    NewISBN ('9' :: '7' :: '8' :: '0' :: []) = GoResult.ok rec9780 ∧
      rec9780.err = some GoErr.wrongISBN ∧
      stringRepr rec9780 = ("ISBN 978-0---".toList) ∧
      stringRepr rec9780 ≠ [] := by
  refine ⟨by decide, by decide, by decide, by decide⟩

/-- C6 amended: a record carrying a parse error is never valid and `Normalize`
leaves it unchanged, but `String()` returns the empty string only when the
version is unknown: a record whose version was set before the error was
detected formats its populated fields despite the error. -/
theorem c6_error_short_circuit (r : ISBN) (e : GoErr) (he : r.err = some e) :
    IsValid r = false ∧ Normalize r = r ∧
      (r.version = Version.unknown → stringRepr r = []) := by
  refine ⟨?_, ?_, ?_⟩
  · unfold IsValid
    rw [if_pos (Or.inl (by simp [he]))]
  · unfold Normalize
    rw [if_pos (Or.inl (by simp [he]))]
  · intro hv
    simp [stringRepr, hv]

/-- C6 witness: the short-circuits on the erroneous record parsed from
`"9780"`. -/
theorem c6_witness :
    rec9780.err = some GoErr.wrongISBN ∧ IsValid rec9780 = false ∧
      Normalize rec9780 = rec9780 :=
  ⟨by decide, (c6_error_short_circuit rec9780 GoErr.wrongISBN (by decide)).1,
    (c6_error_short_circuit rec9780 GoErr.wrongISBN (by decide)).2.1⟩

/-! ### C8 — single-digit-error detection -/

lemma char_eq_of_toNat_eq {c c2 : Char} (h : c.toNat = c2.toNat) : c = c2 :=
  Char.ext (UInt32.toNat.inj h)

lemma digitValR_ne {c c2 : Char} (hne : c ≠ c2) : digitValR c ≠ digitValR c2 := by
  intro h
  unfold digitValR at h
  exact hne (char_eq_of_toNat_eq (by omega))

/-- The version-10 rendering separates distinct digit values in 1..11 unless
both are at least 10 (both render `"X"`). -/
lemma renderV10_ne (a b : Int) (ha1 : 1 ≤ a) (ha2 : a ≤ 11) (hb1 : 1 ≤ b) (hb2 : b ≤ 11)
    (hne : a ≠ b) (hX : ¬(10 ≤ a ∧ 10 ≤ b)) :
    (if a < 10 then intToStr a else ('X' :: [])) ≠ (if b < 10 then intToStr b else ('X' :: [])) := by
  interval_cases a <;> interval_cases b <;>
    first
      | exact absurd rfl hne
      | exact absurd (by decide) hX
      | decide

/-- The version-13 rendering separates distinct remainders in 0..9. -/
lemma renderV13_ne (t1 t2 : Int) (h10 : 0 ≤ t1) (h11 : t1 ≤ 9) (h20 : 0 ≤ t2) (h21 : t2 ≤ 9)
    (hne : t1 ≠ t2) :
    intToStr (10 - (if t1 = 0 then 10 else t1)) ≠ intToStr (10 - (if t2 = 0 then 10 else t2)) := by
  interval_cases t1 <;> interval_cases t2 <;>
    first
      | exact absurd rfl hne
      | decide

/-- Changing one character changes the version-10 weighted sum by the digit
difference times the positional weight. -/
lemma weightSum10_change (pre post : Str) (c c2 : Char) (v : Int) :
    weightSum10 (pre ++ c :: post) v - weightSum10 (pre ++ c2 :: post) v
      = (digitValR c - digitValR c2) * (v - pre.length) := by
  rw [weightSum10_append, weightSum10_append]
  simp only [weightSum10]
  ring

/-- Changing one character changes the version-13 weighted sum by the digit
difference times the positional weight (1 or 3 by parity). -/
lemma weightSum13_change (pre post : Str) (c c2 : Char) (n : Nat) :
    weightSum13 (pre ++ c :: post) n - weightSum13 (pre ++ c2 :: post) n
      = (digitValR c - digitValR c2) * (if (n + pre.length) % 2 = 0 then 1 else 3) := by
  rw [weightSum13_append, weightSum13_append]
  simp only [weightSum13]
  ring

/-- A single digit change at a position of weight 2..10 changes the
version-10 weighted sum modulo 11. -/
lemma v10_mod_ne (pre post : Str) (c c2 : Char)
    (hc : isDigitChar c) (hc2 : isDigitChar c2) (hne : c ≠ c2)
    (hlen : pre.length ≤ 8) :
    (weightSum10 (pre ++ c :: post) 10) % 11 ≠ (weightSum10 (pre ++ c2 :: post) 10) % 11 := by
  intro heq
  have hchange := weightSum10_change pre post c c2 10
  have hd1 := digitValR_bounds hc
  have hd2 := digitValR_bounds hc2
  have hdne := digitValR_ne hne
  set S := weightSum10 (pre ++ c :: post) 10 with hS
  set S2 := weightSum10 (pre ++ c2 :: post) 10 with hS2
  set d1 := digitValR c with hD1
  set d2 := digitValR c2 with hD2
  set k := pre.length with hk
  interval_cases k <;> (norm_num at hchange) <;> omega

/-- A single digit change (weight 1 or 3) changes the version-13 weighted sum
modulo 10. -/
lemma v13_mod_ne (pre post : Str) (c c2 : Char) (n : Nat)
    (hc : isDigitChar c) (hc2 : isDigitChar c2) (hne : c ≠ c2) :
    (weightSum13 (pre ++ c :: post) n) % 10 ≠ (weightSum13 (pre ++ c2 :: post) n) % 10 := by
  intro heq
  have hchange := weightSum13_change pre post c c2 n
  have hd1 := digitValR_bounds hc
  have hd2 := digitValR_bounds hc2
  have hdne := digitValR_ne hne
  set S := weightSum13 (pre ++ c :: post) n with hS
  set S2 := weightSum13 (pre ++ c2 :: post) n with hS2
  by_cases hpar : (n + pre.length) % 2 = 0
  · rw [if_pos hpar] at hchange
    omega
  · rw [if_neg hpar] at hchange
    omega

/-- C8 amended: take a valid record `r` (all-numeric body — 9 digits in the
version-10 case — and, for version 13, an all-numeric prefix) and a record
`r2` that agrees with `r` on every field except that its body concatenation
differs in exactly one position, holding a different digit.  Then `r2` is
invalid, EXCEPT in the version-10 case when the two weighted sums are both ≡ 0
or 1 (mod 11) — there both check digits render as `"X"` and corruption goes
undetected, which is why that case is excluded by hypothesis. -/
theorem c8_single_digit_change (r r2 : ISBN) (pre post : Str) (c c2 : Char)
    (hver : r2.version = r.version) (horig : r2.originalISBN = r.originalISBN)
    (hpfx : r2.prefixStr = r.prefixStr) (hcd : r2.checkDigit = r.checkDigit)
    (herr : r2.err = r.err)
    (hbody : r.registrationGroup ++ (r.registrant ++ r.publication) = pre ++ c :: post)
    (hbody2 : r2.registrationGroup ++ (r2.registrant ++ r2.publication) = pre ++ c2 :: post)
    (hc : isDigitChar c) (hc2 : isDigitChar c2) (hne : c ≠ c2)
    (hpre : ∀ x ∈ pre, isDigitChar x) (hpost : ∀ x ∈ post, isDigitChar x)
    (hpfxd : ∀ x ∈ r.prefixStr, isDigitChar x)
    (hvalid : IsValid r = true)
    (hcase : (r.version = Version.v10 ∧ (pre ++ c :: post).length = 9 ∧
        ¬(Int.tmod (weightSum10 (pre ++ c :: post) 10) 11 ≤ 1 ∧
          Int.tmod (weightSum10 (pre ++ c2 :: post) 10) 11 ≤ 1))
      ∨ r.version = Version.v13) :
    IsValid r2 = false := by
  obtain ⟨he, hcd1, hlen, hov, hcase0⟩ := (isValid_eq_true_iff r).mp hvalid
  by_contra hcon
  have h2 : IsValid r2 = true := by
    rcases Bool.eq_false_or_eq_true (IsValid r2) with ht | hf
    · exact ht
    · exact absurd hf hcon
  obtain ⟨he2, hcd2, hlen2, hov2, hcase2⟩ := (isValid_eq_true_iff r2).mp h2
  have hdall : ∀ x ∈ pre ++ c :: post, isDigitChar x := by
    intro x hx
    rcases List.mem_append.mp hx with h | h
    · exact hpre x h
    · rcases List.mem_cons.mp h with h | h
      · rw [h]
        exact hc
      · exact hpost x h
  have hdall2 : ∀ x ∈ pre ++ c2 :: post, isDigitChar x := by
    intro x hx
    rcases List.mem_append.mp hx with h | h
    · exact hpre x h
    · rcases List.mem_cons.mp h with h | h
      · rw [h]
        exact hc2
      · exact hpost x h
  rcases hcase with ⟨hv10, h9, hXX⟩ | hv13
  · -- version 10
    rcases hcase0 with ⟨-, hcalc⟩ | ⟨hv, -⟩
    swap
    · rw [hv10] at hv
      exact absurd hv (by decide)
    rcases hcase2 with ⟨-, hcalc2⟩ | ⟨hv, -⟩
    swap
    · rw [hver, hv10] at hv
      exact absurd hv (by decide)
    have h9' : (pre ++ c2 :: post).length = 9 := by
      simp only [List.length_append, List.length_cons] at h9 ⊢
      omega
    have hnn : 0 ≤ weightSum10 (pre ++ c :: post) 10 := by
      refine weightSum10_nonneg _ 10 hdall ?_
      rw [h9]
      norm_num
    have hnn2 : 0 ≤ weightSum10 (pre ++ c2 :: post) 10 := by
      refine weightSum10_nonneg _ 10 hdall2 ?_
      rw [h9']
      norm_num
    have htm : Int.tmod (weightSum10 (pre ++ c :: post) 10) 11
        = (weightSum10 (pre ++ c :: post) 10) % 11 := Int.tmod_eq_emod hnn (by norm_num)
    have htm2 : Int.tmod (weightSum10 (pre ++ c2 :: post) 10) 11
        = (weightSum10 (pre ++ c2 :: post) 10) % 11 := Int.tmod_eq_emod hnn2 (by norm_num)
    have hm0 : 0 ≤ (weightSum10 (pre ++ c :: post) 10) % 11 := Int.emod_nonneg _ (by norm_num)
    have hm1 : (weightSum10 (pre ++ c :: post) 10) % 11 < 11 := Int.emod_lt_of_pos _ (by norm_num)
    have hm20 : 0 ≤ (weightSum10 (pre ++ c2 :: post) 10) % 11 := Int.emod_nonneg _ (by norm_num)
    have hm21 : (weightSum10 (pre ++ c2 :: post) 10) % 11 < 11 := Int.emod_lt_of_pos _ (by norm_num)
    have hklen : pre.length ≤ 8 := by
      simp only [List.length_append, List.length_cons] at h9
      omega
    have hmodne := v10_mod_ne pre post c c2 hc hc2 hne hklen
    rw [htm, htm2] at hXX
    have hrender := renderV10_ne
      (11 - (weightSum10 (pre ++ c :: post) 10) % 11)
      (11 - (weightSum10 (pre ++ c2 :: post) 10) % 11)
      (by omega) (by omega) (by omega) (by omega) (by omega)
      (by
        rintro ⟨hx1, hx2⟩
        exact hXX ⟨by omega, by omega⟩)
    have hcalcr : calculateV10CheckDigit r =
        (if 11 - (weightSum10 (pre ++ c :: post) 10) % 11 < 10
         then intToStr (11 - (weightSum10 (pre ++ c :: post) 10) % 11)
         else ('X' :: [])) := by
      rw [calculateV10_concat, hbody, htm]
    have hcalcr2 : calculateV10CheckDigit r2 =
        (if 11 - (weightSum10 (pre ++ c2 :: post) 10) % 11 < 10
         then intToStr (11 - (weightSum10 (pre ++ c2 :: post) 10) % 11)
         else ('X' :: [])) := by
      rw [calculateV10_concat, hbody2, htm2]
    rw [hcalcr] at hcalc
    rw [hcalcr2, hcd] at hcalc2
    rw [← hcalc] at hcalc2
    exact hrender hcalc2.symm
  · -- version 13
    rcases hcase0 with ⟨hv, -⟩ | ⟨-, hcalc⟩
    · rw [hv13] at hv
      exact absurd hv (by decide)
    rcases hcase2 with ⟨hv, -⟩ | ⟨-, hcalc2⟩
    · rw [hver, hv13] at hv
      exact absurd hv (by decide)
    have hdfull : ∀ x ∈ r.prefixStr ++ (pre ++ c :: post), isDigitChar x := by
      intro x hx
      rcases List.mem_append.mp hx with h | h
      · exact hpfxd x h
      · exact hdall x h
    have hdfull2 : ∀ x ∈ r.prefixStr ++ (pre ++ c2 :: post), isDigitChar x := by
      intro x hx
      rcases List.mem_append.mp hx with h | h
      · exact hpfxd x h
      · exact hdall2 x h
    have hsplit : weightSum13 (r.prefixStr ++ (pre ++ c :: post)) 0
        = weightSum13 r.prefixStr 0 + weightSum13 (pre ++ c :: post) r.prefixStr.length := by
      rw [weightSum13_append]
      simp only [Nat.zero_add]
    have hsplit2 : weightSum13 (r.prefixStr ++ (pre ++ c2 :: post)) 0
        = weightSum13 r.prefixStr 0 + weightSum13 (pre ++ c2 :: post) r.prefixStr.length := by
      rw [weightSum13_append]
      simp only [Nat.zero_add]
    have hnn : 0 ≤ weightSum13 (r.prefixStr ++ (pre ++ c :: post)) 0 :=
      weightSum13_nonneg _ 0 hdfull
    have hnn2 : 0 ≤ weightSum13 (r.prefixStr ++ (pre ++ c2 :: post)) 0 :=
      weightSum13_nonneg _ 0 hdfull2
    have htm : Int.tmod (weightSum13 (r.prefixStr ++ (pre ++ c :: post)) 0) 10
        = (weightSum13 (r.prefixStr ++ (pre ++ c :: post)) 0) % 10 :=
      Int.tmod_eq_emod hnn (by norm_num)
    have htm2 : Int.tmod (weightSum13 (r.prefixStr ++ (pre ++ c2 :: post)) 0) 10
        = (weightSum13 (r.prefixStr ++ (pre ++ c2 :: post)) 0) % 10 :=
      Int.tmod_eq_emod hnn2 (by norm_num)
    have hm0 : 0 ≤ (weightSum13 (r.prefixStr ++ (pre ++ c :: post)) 0) % 10 :=
      Int.emod_nonneg _ (by norm_num)
    have hm1 : (weightSum13 (r.prefixStr ++ (pre ++ c :: post)) 0) % 10 < 10 :=
      Int.emod_lt_of_pos _ (by norm_num)
    have hm20 : 0 ≤ (weightSum13 (r.prefixStr ++ (pre ++ c2 :: post)) 0) % 10 :=
      Int.emod_nonneg _ (by norm_num)
    have hm21 : (weightSum13 (r.prefixStr ++ (pre ++ c2 :: post)) 0) % 10 < 10 :=
      Int.emod_lt_of_pos _ (by norm_num)
    have hmodne : (weightSum13 (r.prefixStr ++ (pre ++ c :: post)) 0) % 10
        ≠ (weightSum13 (r.prefixStr ++ (pre ++ c2 :: post)) 0) % 10 := by
      rw [hsplit, hsplit2]
      have hbase := v13_mod_ne pre post c c2 r.prefixStr.length hc hc2 hne
      omega
    have hrender := renderV13_ne
      ((weightSum13 (r.prefixStr ++ (pre ++ c :: post)) 0) % 10)
      ((weightSum13 (r.prefixStr ++ (pre ++ c2 :: post)) 0) % 10)
      hm0 (by omega) hm20 (by omega) hmodne
    have hcalcr : calculateV13CheckDigit r =
        intToStr (10 -
          (if (weightSum13 (r.prefixStr ++ (pre ++ c :: post)) 0) % 10 = 0
           then 10
           else (weightSum13 (r.prefixStr ++ (pre ++ c :: post)) 0) % 10)) := by
      rw [calculateV13_concat, hbody, htm]
    have hcalcr2 : calculateV13CheckDigit r2 =
        intToStr (10 -
          (if (weightSum13 (r.prefixStr ++ (pre ++ c2 :: post)) 0) % 10 = 0
           then 10
           else (weightSum13 (r.prefixStr ++ (pre ++ c2 :: post)) 0) % 10)) := by
      rw [calculateV13_concat, hbody2, hpfx, htm2]
    rw [hcalcr] at hcalc
    rw [hcalcr2, hcd] at hcalc2
    rw [← hcalc] at hcalc2
    exact hrender hcalc2.symm

/-- The valid record parsed from `"000000006X"`: body 0,0,0,0,0,0,0,0,6 with
weighted sum 12 ≡ 1 (mod 11), check digit `"X"`. -/
def recX006 : ISBN :=
  ⟨("000000006X".toList), Version.v10, [], ('0' :: []), ('0' :: '0' :: []),
    ('0' :: '0' :: '0' :: '0' :: '0' :: '6' :: []), ('X' :: []), none⟩

/-- `recX006` with the last publication digit changed from 6 to 0 (weighted
sum 0 ≡ 0 (mod 11), which also renders `"X"`). -/
def recX000 : ISBN :=
  ⟨("000000006X".toList), Version.v10, [], ('0' :: []), ('0' :: '0' :: []),
    ('0' :: '0' :: '0' :: '0' :: '0' :: '0' :: []), ('X' :: []), none⟩

/-- C8 counterexample: a valid parsed record in which changing the single
publication digit `'6'` to the different digit `'0'` leaves the record valid:
both weighted sums (12 and 0) have residues in {0, 1} mod 11, and both render
the check digit `"X"`. -/
theorem c8_counterexample :
    NewISBN ("000000006X".toList) = GoResult.ok recX006 ∧
      IsValid recX006 = true ∧
      recX006.publication = ('0' :: '0' :: '0' :: '0' :: '0' :: []) ++ ('6' :: []) ∧
      recX000 = { recX006 with publication := ('0' :: '0' :: '0' :: '0' :: '0' :: []) ++ ('0' :: []) } ∧
      IsValid recX000 = true := by
  refine ⟨by decide, by decide, by decide, by decide, by decide⟩

/-- The valid record for ISBN 0-393-04002-X with its raw input. -/
def rec039X : ISBN :=
  ⟨("039304002X".toList), Version.v10, [], ('0' :: []), ('3' :: '9' :: '3' :: []),
    ('0' :: '4' :: '0' :: '0' :: '2' :: []), ('X' :: []), none⟩

/-- `rec039X` with the last publication digit changed from 2 to 3. -/
def rec039X3 : ISBN :=
  ⟨("039304002X".toList), Version.v10, [], ('0' :: []), ('3' :: '9' :: '3' :: []),
    ('0' :: '4' :: '0' :: '0' :: '3' :: []), ('X' :: []), none⟩

/-- C8 witness: changing the last body digit of the valid 0-393-04002-X
record from 2 to 3 (weighted sums 144 ≡ 1 and 146 ≡ 3 mod 11 — not both in
the `"X"` band) makes the record invalid. -/
theorem c8_witness :
    IsValid rec039X = true ∧ IsValid rec039X3 = false :=
  ⟨by decide,
    c8_single_digit_change rec039X rec039X3
      ('0' :: '3' :: '9' :: '3' :: '0' :: '4' :: '0' :: '0' :: []) [] '2' '3'
      (by decide) (by decide) (by decide) (by decide) (by decide)
      (by decide) (by decide) (by decide) (by decide) (by decide)
      (by decide) (by decide) (by decide) (by decide)
      (Or.inl ⟨by decide, by decide, by decide⟩)⟩

/-! ### C9 — round-trip through the canonical string form -/

lemma findRunsAux_goodAccum (xs rest acc : Str) (hgood : ∀ x ∈ xs, isbnChar x = true) :
    findRunsAux (xs ++ rest) acc = findRunsAux rest (xs.reverse ++ acc) := by
  induction xs generalizing acc with
  | nil => simp
  | cons c cs ih =>
    have hgc : isbnChar c = true := hgood c (List.mem_cons_self c cs)
    have hih := ih (c :: acc) (fun x hx => hgood x (List.mem_cons_of_mem c hx))
    simp [findRunsAux, hgc, hih, List.reverse_cons, List.append_assoc]

lemma findRunsAux_badChars (xs rest : Str) (hbad : ∀ x ∈ xs, isbnChar x = false) :
    findRunsAux (xs ++ rest) [] = findRunsAux rest [] := by
  induction xs with
  | nil => simp
  | cons c cs ih =>
    have hbc : isbnChar c = false := hbad c (List.mem_cons_self c cs)
    have hih := ih (fun x hx => hbad x (List.mem_cons_of_mem c hx))
    simp [findRunsAux, hbc, hih]

lemma findRunsAux_goodRun (xs rest : Str) (d : Char) (hne : xs ≠ [])
    (hgood : ∀ x ∈ xs, isbnChar x = true) (hbad : isbnChar d = false) :
    findRunsAux (xs ++ d :: rest) [] = xs :: findRunsAux rest [] := by
  rw [findRunsAux_goodAccum xs (d :: rest) [] hgood]
  simp only [List.append_nil, findRunsAux]
  rw [if_neg (by simp [hbad])]
  rw [if_neg (by simp [hne])]
  simp

lemma findRunsAux_goodAll (xs : Str) (hne : xs ≠ []) (hgood : ∀ x ∈ xs, isbnChar x = true) :
    findRunsAux xs [] = xs :: [] := by
  have h := findRunsAux_goodAccum xs [] [] hgood
  simp only [List.append_nil] at h
  rw [h]
  simp only [findRunsAux]
  rw [if_neg (by simp [hne])]
  simp

/-- The canonical version-10 form, right-nested. -/
lemma stringRepr_v10_norm (r : ISBN) (hv : r.version = Version.v10) :
    stringRepr r =
      ('I' :: 'S' :: 'B' :: 'N' :: '-' :: []) ++
        (('1' :: '0' :: []) ++ (' ' ::
          (r.registrationGroup ++ ('-' ::
            (r.registrant ++ ('-' ::
              (r.publication ++ ('-' :: r.checkDigit)))))))) := by
  simp [stringRepr, hv, versionToStr]

/-- The canonical version-13 form, right-nested. -/
lemma stringRepr_v13_norm (r : ISBN) (hv : r.version = Version.v13) :
    stringRepr r =
      ('I' :: 'S' :: 'B' :: 'N' :: ' ' :: []) ++
        (r.prefixStr ++ ('-' ::
          (r.registrationGroup ++ ('-' ::
            (r.registrant ++ ('-' ::
              (r.publication ++ ('-' :: r.checkDigit)))))))) := by
  simp [stringRepr, hv]

/-- Tokenizing the canonical version-10 form yields exactly the version token
and the four fields. -/
lemma findAll_v10_format (g rg p cd : Str)
    (hg : g ≠ []) (hgc : ∀ x ∈ g, isbnChar x = true)
    (hr : rg ≠ []) (hrc : ∀ x ∈ rg, isbnChar x = true)
    (hp : p ≠ []) (hpc : ∀ x ∈ p, isbnChar x = true)
    (hcd : cd ≠ []) (hcdc : ∀ x ∈ cd, isbnChar x = true) :
    findAllNumbers
        (('I' :: 'S' :: 'B' :: 'N' :: '-' :: []) ++
          (('1' :: '0' :: []) ++ (' ' ::
            (g ++ ('-' :: (rg ++ ('-' :: (p ++ ('-' :: cd))))))))) =
      ('1' :: '0' :: []) :: g :: rg :: p :: cd :: [] := by
  unfold findAllNumbers
  rw [findRunsAux_badChars ('I' :: 'S' :: 'B' :: 'N' :: '-' :: []) _ (by decide)]
  rw [findRunsAux_goodRun ('1' :: '0' :: []) _ ' ' (by decide) (by decide) (by decide)]
  rw [findRunsAux_goodRun g _ '-' hg hgc (by decide)]
  rw [findRunsAux_goodRun rg _ '-' hr hrc (by decide)]
  rw [findRunsAux_goodRun p _ '-' hp hpc (by decide)]
  rw [findRunsAux_goodAll cd hcd hcdc]

/-- Tokenizing the canonical version-13 form yields exactly the five fields. -/
lemma findAll_v13_format (pf g rg p cd : Str)
    (hpf : pf ≠ []) (hpfc : ∀ x ∈ pf, isbnChar x = true)
    (hg : g ≠ []) (hgc : ∀ x ∈ g, isbnChar x = true)
    (hr : rg ≠ []) (hrc : ∀ x ∈ rg, isbnChar x = true)
    (hp : p ≠ []) (hpc : ∀ x ∈ p, isbnChar x = true)
    (hcd : cd ≠ []) (hcdc : ∀ x ∈ cd, isbnChar x = true) :
    findAllNumbers
        (('I' :: 'S' :: 'B' :: 'N' :: ' ' :: []) ++
          (pf ++ ('-' :: (g ++ ('-' :: (rg ++ ('-' :: (p ++ ('-' :: cd))))))))) =
      pf :: g :: rg :: p :: cd :: [] := by
  unfold findAllNumbers
  rw [findRunsAux_badChars ('I' :: 'S' :: 'B' :: 'N' :: ' ' :: []) _ (by decide)]
  rw [findRunsAux_goodRun pf _ '-' hpf hpfc (by decide)]
  rw [findRunsAux_goodRun g _ '-' hg hgc (by decide)]
  rw [findRunsAux_goodRun rg _ '-' hr hrc (by decide)]
  rw [findRunsAux_goodRun p _ '-' hp hpc (by decide)]
  rw [findRunsAux_goodAll cd hcd hcdc]

/-- C9 amended: a valid record whose printed fields are nonempty runs of
`[0-9Xx]` characters (with an empty prefix for version 10, and for version 13
a prefix that is not the literal `"10"`/`"13"` version hint) reparses from its
canonical string form to a record with identical version, prefix, group,
registrant, publication and check digit. -/
theorem c9_round_trip (r : ISBN)
    (hvalid : IsValid r = true)
    (hg : r.registrationGroup ≠ []) (hgc : ∀ x ∈ r.registrationGroup, isbnChar x = true)
    (hr : r.registrant ≠ []) (hrc : ∀ x ∈ r.registrant, isbnChar x = true)
    (hp : r.publication ≠ []) (hpc : ∀ x ∈ r.publication, isbnChar x = true)
    (hcd : r.checkDigit ≠ []) (hcdc : ∀ x ∈ r.checkDigit, isbnChar x = true)
    (hver : (r.version = Version.v10 ∧ r.prefixStr = [])
      ∨ (r.version = Version.v13 ∧ r.prefixStr ≠ []
          ∧ (∀ x ∈ r.prefixStr, isbnChar x = true)
          ∧ r.prefixStr ≠ ('1' :: '0' :: []) ∧ r.prefixStr ≠ ('1' :: '3' :: []))) :
    ∃ r2, NewISBN (stringRepr r) = GoResult.ok r2 ∧
      r2.version = r.version ∧ r2.prefixStr = r.prefixStr ∧
      r2.registrationGroup = r.registrationGroup ∧ r2.registrant = r.registrant ∧
      r2.publication = r.publication ∧ r2.checkDigit = r.checkDigit ∧ r2.err = none := by
  rcases hver with ⟨hv, hpfx0⟩ | ⟨hv, hpf, hpfc, hne10, hne13⟩
  · -- version 10
    have hnorm := stringRepr_v10_norm r hv
    have htok := findAll_v10_format r.registrationGroup r.registrant r.publication r.checkDigit
      hg hgc hr hrc hp hpc hcd hcdc
    have hany : (stringRepr r).any matchChar = true := by
      rw [hnorm, List.any_append]
      rw [show (('I' :: 'S' :: 'B' :: 'N' :: '-' :: []).any matchChar) = true from by decide]
      simp
    have hcore : newISBNCore (stringRepr r) =
        GoResult.ok ⟨[], Version.v10, [], r.registrationGroup, r.registrant,
          r.publication, r.checkDigit, none⟩ := by
      unfold newISBNCore
      rw [hnorm, htok]
      unfold stripHint
      dsimp only
      rw [if_pos (Or.inr rfl)]
    refine ⟨⟨stringRepr r, Version.v10, [], r.registrationGroup, r.registrant,
      r.publication, r.checkDigit, none⟩, ?_, hv.symm, hpfx0.symm, rfl, rfl, rfl, rfl, rfl⟩
    unfold NewISBN
    rw [if_neg (by simp [hany])]
    rw [hcore]
  · -- version 13
    have hnorm := stringRepr_v13_norm r hv
    have htok := findAll_v13_format r.prefixStr r.registrationGroup r.registrant
      r.publication r.checkDigit hpf hpfc hg hgc hr hrc hp hpc hcd hcdc
    have hany : (stringRepr r).any matchChar = true := by
      rw [hnorm, List.any_append]
      rw [show (('I' :: 'S' :: 'B' :: 'N' :: ' ' :: []).any matchChar) = true from by decide]
      simp
    have hcore : newISBNCore (stringRepr r) =
        GoResult.ok ⟨[], Version.v13, r.prefixStr, r.registrationGroup, r.registrant,
          r.publication, r.checkDigit, none⟩ := by
      unfold newISBNCore
      rw [hnorm, htok]
      unfold stripHint
      dsimp only
      rw [if_neg (by
        rintro (h | h)
        · exact hne13 h
        · exact hne10 h)]
    refine ⟨⟨stringRepr r, Version.v13, r.prefixStr, r.registrationGroup, r.registrant,
      r.publication, r.checkDigit, none⟩, ?_, hv.symm, rfl, rfl, rfl, rfl, rfl, rfl⟩
    unfold NewISBN
    rw [if_neg (by simp [hany])]
    rw [hcore]

/-- The valid record parsed from `"9990150001"`: group `"99901"`, registrant
`"5000"`, EMPTY publication, check digit `"1"` (weighted sum 274 ≡ 10 mod 11,
digit 1). -/
def rec99901 : ISBN :=
  ⟨("9990150001".toList), Version.v10, [], ('9' :: '9' :: '9' :: '0' :: '1' :: []),
    ('5' :: '0' :: '0' :: '0' :: []), [], ('1' :: []), none⟩

/-- The record obtained by reparsing `toString rec99901`. -/
def rec99901Reparsed : ISBN :=
  ⟨("ISBN-10 99901-5000--1".toList), Version.unknown, [], [], [], [],
    [], some GoErr.wrongISBN⟩

/-- C9 counterexample: the valid record parsed from `"9990150001"` has an
empty publication, so its canonical form `"ISBN-10 99901-5000--1"` tokenizes
into only three fields after the version hint is stripped, and reparsing
yields an error record with a different (unknown) version — the round trip
fails. -/
theorem c9_counterexample :
    NewISBN ("9990150001".toList) = GoResult.ok rec99901 ∧
      IsValid rec99901 = true ∧
      stringRepr rec99901 = ("ISBN-10 99901-5000--1".toList) ∧
      NewISBN (stringRepr rec99901) = GoResult.ok rec99901Reparsed ∧
      rec99901Reparsed.err = some GoErr.wrongISBN ∧
      rec99901Reparsed.version ≠ rec99901.version := by
  refine ⟨by decide, by decide, by decide, by decide, by decide, by decide⟩

/-- The valid ISBN 0-393-04002-X record used to witness the round trip. -/
def recRT10 : ISBN :=
  ⟨("039304002X".toList), Version.v10, [], ('0' :: []), ('3' :: '9' :: '3' :: []),
    ('0' :: '4' :: '0' :: '0' :: '2' :: []), ('X' :: []), none⟩

/-- C9 witness: the valid 0-393-04002-X record round-trips through its
canonical string form with all six fields preserved. -/
theorem c9_witness :
    IsValid recRT10 = true ∧
      (∃ r2, NewISBN (stringRepr recRT10) = GoResult.ok r2 ∧
        r2.version = recRT10.version ∧ r2.prefixStr = recRT10.prefixStr ∧
        r2.registrationGroup = recRT10.registrationGroup ∧
        r2.registrant = recRT10.registrant ∧
        r2.publication = recRT10.publication ∧
        r2.checkDigit = recRT10.checkDigit ∧ r2.err = none) :=
  ⟨by decide,
    c9_round_trip recRT10 (by decide) (by decide) (by decide) (by decide) (by decide)
      (by decide) (by decide) (by decide) (by decide) (Or.inl ⟨rfl, rfl⟩)⟩

end IsbnGo
